import Mathlib

/-!
Shallow embedding of the rule-installation engine of the repository
(`src/installers/cursor.js` and `src/installers/copilot.js`).

Strings are modelled as `List Char` (`Str`), so that every operation the
installers perform (JS `Array.join`, `String.replace`, the title-extraction
regex, directory-listing sorts) is an executable Lean function that mirrors
the JavaScript semantics operation by operation.  The filesystem a section
installer reads is modelled by `SectionFS`: the optional `section.json`
configuration, the optional `00-index.md` content, and the three optional
role directories, each given as the `readdir` listing of (file name, file
content) pairs in enumeration order.  `fs.writeFileSync` calls become an
emission plan, an ordered list of (path, content) pairs; `runWrites` replays
a plan against a path-indexed store with overwrite semantics.
-/

namespace GuacInstall

/-- Contents and names are JavaScript strings, modelled as lists of characters. -/
abbrev Str := List Char

/-- Character list of a Lean string literal. -/
def str (s : String) : Str := s.data

/-- JS `Array.prototype.join(sep)`: empty array gives the empty string,
a singleton gives its element, otherwise elements interleaved with `sep`. -/
def joinSep (sep : Str) : List Str → Str
  | [] => []
  | [x] => x
  | x :: y :: t => x ++ sep ++ joinSep sep (y :: t)

/-- Character class of `\s` in a JavaScript regex (whitespace). -/
def isWsChar (c : Char) : Bool :=
  c = ' ' || c = '\t' || c = '\n' || c = '\x0b' || c = '\x0c' || c = '\r' ||
  c = '\u00A0' || c = '\u1680' || ('\u2000' ≤ c && c ≤ '\u200A') ||
  c = '\u2028' || c = '\u2029' || c = '\u202F' || c = '\u205F' || c = '\u3000' ||
  c = '\uFEFF'

/-- The characters `.+` can consume at one line: everything up to the next newline. -/
def takeLine (l : Str) : Str := l.takeWhile (fun c => !(c == '\n'))

/-- Length of the maximal whitespace run at the head of `l` (the greedy `\s+`). -/
def wsRun (l : Str) : Nat := (l.takeWhile isWsChar).length

/-- Backtracking of the greedy `\s+` in `/^#\s+(.+)$/m`, applied to the text
after the `#`: try consuming `k` whitespace characters, largest first, and
capture the remainder of the line if it is non-empty. -/
def tryHashK (rest : Str) : Nat → Option Str
  | 0 => none
  | k + 1 =>
    let t := takeLine (rest.drop (k + 1))
    if t.isEmpty then tryHashK rest k else some t

/-- Match of `#\s+(.+)$` directly after a line-start `#`, returning the capture. -/
def matchHashAt (rest : Str) : Option Str := tryHashK rest (wsRun rest)

/-- Left-to-right scan of `content.match(/^#\s+(.+)$/m)`: the `^` anchor only
lets a match begin at the start of a line. -/
def scanTitle : Str → Bool → Option Str
  | [], _ => none
  | c :: rest, atStart =>
    if atStart && c == '#' then
      match matchHashAt rest with
      | some t => some t
      | none => scanTitle rest false
    else scanTitle rest (c == '\n')

/-- `content.match(/^#\s+(.+)$/m)` — the first markdown heading of a guide,
used as its human-readable title (`cursor.js` line 87). -/
def extractTitle (s : Str) : Option Str := scanTitle s true

/-- JS `name.replace('.md', '')`: delete the first occurrence of `.md`. -/
def replaceFirstMd : Str → Str
  | [] => []
  | c :: rest =>
    if List.isPrefixOf (str ".md") (c :: rest) then rest.drop 2
    else c :: replaceFirstMd rest

/-- JS `name.endsWith('.md')`, the filter applied to every role directory listing. -/
def endsWithMd (n : Str) : Bool := List.isPrefixOf (str ".md").reverse n.reverse

/-- JS default string comparison (`Array.prototype.sort()` with no comparator):
lexicographic by code unit; code points coincide with code units on the
Basic Multilingual Plane, which covers all file names in this repository. -/
def strLe : Str → Str → Bool
  | [], _ => true
  | _ :: _, [] => false
  | a :: as, b :: bs =>
    if a.toNat < b.toNat then true
    else if b.toNat < a.toNat then false
    else strLe as bs

/-- Insert a (file name, content) pair into a name-sorted list. -/
def insertByName (x : Str × Str) : List (Str × Str) → List (Str × Str)
  | [] => [x]
  | y :: ys => if strLe x.1 y.1 then x :: y :: ys else y :: insertByName x ys

/-- Stable sort of a directory listing by file name, the model of the
JavaScript `.sort()` the installers apply to guide and decision listings. -/
def sortByName : List (Str × Str) → List (Str × Str)
  | [] => []
  | x :: xs => insertByName x (sortByName xs)

/-- `readdirSync(dir).filter((f) => f.endsWith('.md'))` over a listing that
carries each file's content alongside its name. -/
def mdFiles (l : List (Str × Str)) : List (Str × Str) :=
  l.filter (fun e => endsWithMd e.1)

/-- The markdown files of a listing in the order guides and decisions are
processed: filtered, then `.sort()`ed. -/
def sortedMdFiles (l : List (Str × Str)) : List (Str × Str) := sortByName (mdFiles l)

/-- The markdown files of a listing in the order agents are processed:
filtered but NOT sorted — `readdir` enumeration order. -/
def listedMdFiles (l : List (Str × Str)) : List (Str × Str) := mdFiles l

/-- JS truthiness of an optional string argument (`undefined` and `''` are falsy). -/
def strTruthy : Option Str → Bool
  | none => false
  | some s => !s.isEmpty

/-- The `lines` array built by `toMdcRule` in `cursor.js` lines 11-19:
frontmatter delimiters, optional `description:` and `globs:` attributes, the
mandatory `alwaysApply:` attribute, a blank line, then the body. -/
def mdcLines (description globs : Option Str) (content : Str) (alwaysApply : Bool) :
    List Str :=
  [str "---"]
    ++ (if strTruthy description then [str "description: " ++ description.getD []] else [])
    ++ (if strTruthy globs then [str "globs: " ++ globs.getD []] else [])
    ++ [str "alwaysApply: " ++ (if alwaysApply then str "true" else str "false"),
        str "---", [], content]

/-- `toMdcRule` of `cursor.js`: the lines array joined by newlines. -/
def toMdcRule (description globs : Option Str) (content : Str) (alwaysApply : Bool) :
    Str :=
  joinSep (str "\n") (mdcLines description globs content alwaysApply)

/-- One attempted match of `/\(\.\/guides\/([^)]+)\.md\)/` at the head of `l`:
the literal `(./guides/`, then a non-empty run of non-`)` characters that must
end in `.md` (the capture is that run minus the `.md`), then `)`.  Returns the
capture and the text after the match. -/
def guideLinkMatch (l : Str) : Option (Str × Str) :=
  if List.isPrefixOf (str "(./guides/") l then
    let rest := l.drop 10
    let a := rest.takeWhile (fun c => !(c == ')'))
    match rest.drop a.length with
    | c :: after =>
      if c == ')' && List.isPrefixOf (str ".md").reverse a.reverse && decide (4 ≤ a.length)
      then some (a.take (a.length - 3), after)
      else none
    | [] => none
  else none

/-- The global-replace loop of `rewriteIndexPaths`: at each position try the
guide-link pattern; on a match emit `(.cursor/rules/<section>-<id>.mdc)` and
continue after the match, otherwise copy one character.  `fuel` bounds the
recursion; every step consumes at least one character, so `fuel = l.length`
always suffices. -/
def rewriteGoF (sec : Str) : Nat → Str → Str
  | 0, l => l
  | fuel + 1, l =>
    match guideLinkMatch l with
    | some (core, after) =>
      str "(.cursor/rules/" ++ sec ++ str "-" ++ core ++ str ".mdc)"
        ++ rewriteGoF sec fuel after
    | none =>
      match l with
      | [] => []
      | c :: rest => c :: rewriteGoF sec fuel rest

/-- `rewriteIndexPaths(indexContent, sectionName)` of `cursor.js` lines 26-31:
`indexContent.replace(/\(\.\/guides\/([^)]+)\.md\)/g, ...)`. -/
def rewriteIndexPaths (content sec : Str) : Str :=
  rewriteGoF sec content.length content

/-- The optional `section.json` of a section: a default glob for the whole
section and per-guide glob overrides keyed by guide identifier. -/
structure SectionConfig where
  globs : Option Str
  guideGlobs : List (Str × Str)

/-- Everything an installer reads from disk about one section.  Each
directory, when present, is its `readdir` listing: (file name, file content)
pairs in enumeration order, which `readdir` does not sort. -/
structure SectionFS where
  name : Str
  config : Option SectionConfig
  indexFile : Option Str
  guidesDir : Option (List (Str × Str))
  agentsDir : Option (List (Str × Str))
  decisionsDir : Option (List (Str × Str))

/-- `sectionConfig.globs` after the `fs.existsSync(sectionConfigFile)` check:
`undefined` when `section.json` is missing. -/
def SectionFS.sectionGlobs (fs : SectionFS) : Option Str :=
  match fs.config with
  | some c => c.globs
  | none => none

/-- `sectionConfig.guideGlobs || {}`. -/
def SectionFS.guideGlobsMap (fs : SectionFS) : List (Str × Str) :=
  match fs.config with
  | some c => c.guideGlobs
  | none => []

/-- Lookup of `guideGlobs[guideKey]`: `undefined` when the key is absent. -/
def lookupGlob (m : List (Str × Str)) (k : Str) : Option Str :=
  (m.find? (fun e => e.1 == k)).map (fun e => e.2)

/-- The decision artifacts of a section: markdown files of the decisions
directory, empty when the directory is absent. -/
def decisionArtifacts (fs : SectionFS) : List (Str × Str) :=
  match fs.decisionsDir with
  | some l => mdFiles l
  | none => []

/-- The guide artifacts of a section: markdown files of the guides
directory, empty when the directory is absent. -/
def guideArtifacts (fs : SectionFS) : List (Str × Str) :=
  match fs.guidesDir with
  | some l => mdFiles l
  | none => []

/-- Output directory of the Cursor emitter, relative to the target. -/
def cursorRulesDir : Str := str ".cursor/rules/"

/-- Step 1 of `cursor.js` `install` (lines 54-70): the index, rewritten and
emitted as the only possibly auto-attached rule, when `00-index.md` exists. -/
def cursorIndexPlan (fs : SectionFS) : List (Str × Str) :=
  match fs.indexFile with
  | none => []
  | some indexContent =>
    [(cursorRulesDir ++ fs.name ++ str "-index.mdc",
      toMdcRule
        (some (fs.name ++ str " — index and routing table. Read this FIRST to find which guide to load."))
        fs.sectionGlobs
        (rewriteIndexPaths indexContent fs.name)
        false)]

/-- Emission of one guide (`cursor.js` lines 80-103): title from the first
heading with the file name minus `.md` as fallback, per-guide glob override
looked up under the same key, description `"<section> guide: <title>"`. -/
def cursorGuideRule (sectionName : Str) (guideGlobs : List (Str × Str))
    (g : Str × Str) : Str × Str :=
  let title := (extractTitle g.2).getD (replaceFirstMd g.1)
  let guideKey := replaceFirstMd g.1
  let guideGlob := lookupGlob guideGlobs guideKey
  (cursorRulesDir ++ sectionName ++ str "-" ++ guideKey ++ str ".mdc",
   toMdcRule (some (sectionName ++ str " guide: " ++ title)) guideGlob g.2 false)

/-- Step 2 of `cursor.js` `install` (lines 73-107): one rule per markdown
guide, in sorted order, when the guides directory exists. -/
def cursorGuidesPlan (fs : SectionFS) : List (Str × Str) :=
  match fs.guidesDir with
  | none => []
  | some l => (sortedMdFiles l).map (cursorGuideRule fs.name fs.guideGlobsMap)

/-- Emission of one agent (`cursor.js` lines 116-136): description
`"Agent: <title>"`, never a glob. -/
def cursorAgentRule (sectionName : Str) (g : Str × Str) : Str × Str :=
  let description := (extractTitle g.2).getD (replaceFirstMd g.1)
  (cursorRulesDir ++ sectionName ++ str "-" ++ replaceFirstMd g.1 ++ str ".mdc",
   toMdcRule (some (str "Agent: " ++ description)) none g.2 false)

/-- Step 3 of `cursor.js` `install` (lines 109-138): one rule per markdown
agent, in `readdir` listing order (the agent listing is not sorted), when the
agents directory exists. -/
def cursorAgentsPlan (fs : SectionFS) : List (Str × Str) :=
  match fs.agentsDir with
  | none => []
  | some l => (listedMdFiles l).map (cursorAgentRule fs.name)

/-- Step 4 of `cursor.js` `install` (lines 141-163): whenever the decisions
directory exists, one single rule whose body is all sorted decision bodies
joined by a horizontal rule. -/
def cursorDecisionsPlan (fs : SectionFS) : List (Str × Str) :=
  match fs.decisionsDir with
  | none => []
  | some l =>
    [(cursorRulesDir ++ fs.name ++ str "-decisions.mdc",
      toMdcRule
        (some (fs.name ++ str " — architecture decision records (ADRs)"))
        none
        (joinSep (str "\n\n---\n\n") ((sortedMdFiles l).map (fun g => g.2)))
        false)]

/-- The full emission plan of `cursor.js` `install`, in write order. -/
def cursorInstall (fs : SectionFS) : List (Str × Str) :=
  cursorIndexPlan fs ++ cursorGuidesPlan fs ++ cursorAgentsPlan fs
    ++ cursorDecisionsPlan fs

/-- Output directory of the Copilot emitter, relative to the target. -/
def instructionsDir : Str := str ".github/instructions/"

/-- Step 1 of `copilot.js` `install` (lines 21-57): when the guides directory
exists, one merged instruction file holding the (unrewritten) index content —
empty string when `00-index.md` is missing — followed by all sorted guide
bodies joined by a horizontal rule, under a fixed `applyTo` frontmatter. -/
def copilotGuidesPlan (fs : SectionFS) : List (Str × Str) :=
  match fs.guidesDir with
  | none => []
  | some l =>
    let indexContent := fs.indexFile.getD []
    let guidesContent := joinSep (str "\n\n---\n\n") ((sortedMdFiles l).map (fun g => g.2))
    [(instructionsDir ++ fs.name ++ str "-guides.instructions.md",
      joinSep (str "\n")
        [str "---", str "applyTo: \"src/data/**\"", str "---", [],
         indexContent, [], str "---", [], guidesContent])]

/-- Step 2 of `copilot.js` `install` (lines 59-85): one instruction file per
markdown agent, in `readdir` listing order (not sorted), each under the same
fixed `applyTo` frontmatter. -/
def copilotAgentsPlan (fs : SectionFS) : List (Str × Str) :=
  match fs.agentsDir with
  | none => []
  | some l =>
    (listedMdFiles l).map (fun g =>
      (instructionsDir ++ fs.name ++ str "-" ++ replaceFirstMd g.1
         ++ str ".instructions.md",
       joinSep (str "\n")
         [str "---", str "applyTo: \"src/data/**\"", str "---", [], g.2]))

/-- Step 3 of `copilot.js` `install` (lines 88-115): whenever the decisions
directory exists, one instruction file with all sorted decision bodies joined
by a horizontal rule, under the same fixed `applyTo` frontmatter. -/
def copilotDecisionsPlan (fs : SectionFS) : List (Str × Str) :=
  match fs.decisionsDir with
  | none => []
  | some l =>
    [(instructionsDir ++ fs.name ++ str "-decisions.instructions.md",
      joinSep (str "\n")
        [str "---", str "applyTo: \"src/data/**\"", str "---", [],
         joinSep (str "\n\n---\n\n") ((sortedMdFiles l).map (fun g => g.2))])]

/-- The full emission plan of `copilot.js` `install`, in write order. -/
def copilotInstall (fs : SectionFS) : List (Str × Str) :=
  copilotGuidesPlan fs ++ copilotAgentsPlan fs ++ copilotDecisionsPlan fs

/-- The state of the output tree: content found at each path, if any. -/
def FileStore := Str → Option Str

/-- `fs.writeFileSync(path, content)`: overwrite whatever the path held. -/
def writeFileAt (s : FileStore) (p c : Str) : FileStore :=
  fun q => if q = p then some c else s q

/-- Execute an emission plan in order against a store. -/
def runWrites (s : FileStore) : List (Str × Str) → FileStore
  | [] => s
  | w :: rest => runWrites (writeFileAt s w.1 w.2) rest

/-- The last content a plan writes at a path, if the plan touches it
(later writes take precedence over earlier ones). -/
def lastWrite : List (Str × Str) → Str → Option Str
  | [], _ => none
  | w :: rest, q =>
    match lastWrite rest q with
    | some c => some c
    | none => if w.1 = q then some w.2 else none

/-- `true` when no position of `l` matches the guide-link pattern, i.e. the
global replace of `rewriteIndexPaths` finds nothing to rewrite. -/
def noGuideLink : Str → Bool
  | [] => true
  | c :: t => (guideLinkMatch (c :: t)).isNone && noGuideLink t

/-- A Cursor rule emitted with `alwaysApply: false`: the content is some
`toMdcRule` output whose frontmatter lines include `alwaysApply: false`. -/
def alwaysApplyFalseRule (c : Str) : Prop :=
  ∃ d g b, c = toMdcRule d g b false ∧ str "alwaysApply: false" ∈ mdcLines d g b false

/-- A Copilot instruction file: fixed `applyTo` frontmatter, then the body. -/
def hasApplyToHeader (c : Str) : Prop :=
  ∃ rest, c = str "---\napplyTo: \"src/data/**\"\n---\n\n" ++ rest

/-- Ordering of two listing entries by file name under the JS sort order. -/
abbrev nameLe (x y : Str × Str) : Prop := strLe x.1 y.1 = true

lemma strLe_total (x y : Str) : strLe x y = true ∨ strLe y x = true := by
  induction x generalizing y with
  | nil => left; rfl
  | cons a as ih =>
    cases y with
    | nil => right; rfl
    | cons b bs =>
      simp only [strLe]
      rcases Nat.lt_trichotomy a.toNat b.toNat with h | h | h
      · left; simp [h]
      · simp [h]
        exact ih bs
      · right; simp [h, Nat.lt_asymm h]

lemma strLe_trans (x y z : Str) (hxy : strLe x y = true) (hyz : strLe y z = true) :
    strLe x z = true := by
  induction x generalizing y z with
  | nil => rfl
  | cons a as ih =>
    cases y with
    | nil => simp [strLe] at hxy
    | cons b bs =>
      cases z with
      | nil => simp [strLe] at hyz
      | cons c cs =>
        simp only [strLe] at hxy hyz ⊢
        rcases Nat.lt_trichotomy a.toNat b.toNat with hab | hab | hab
        · rcases Nat.lt_trichotomy b.toNat c.toNat with hbc | hbc | hbc
          · have hac : a.toNat < c.toNat := Nat.lt_trans hab hbc
            simp [hac]
          · have hac : a.toNat < c.toNat := hbc ▸ hab
            simp [hac]
          · exfalso
            simp [Nat.lt_asymm hbc, hbc] at hyz
        · rcases Nat.lt_trichotomy b.toNat c.toNat with hbc | hbc | hbc
          · have hac : a.toNat < c.toNat := hab ▸ hbc
            simp [hac]
          · have hac : a.toNat = c.toNat := hab.trans hbc
            simp [Nat.lt_irrefl, hab, hbc] at hxy hyz
            simp [hac, Nat.lt_irrefl]
            exact ih bs cs hxy hyz
          · exfalso
            simp [Nat.lt_asymm hbc, hbc] at hyz
        · exfalso
          simp [Nat.lt_asymm hab, hab] at hxy

lemma mem_insertByName (a x : Str × Str) (l : List (Str × Str)) :
    a ∈ insertByName x l ↔ a = x ∨ a ∈ l := by
  induction l with
  | nil => simp [insertByName]
  | cons y ys ih =>
    by_cases hxy : strLe x.1 y.1 = true
    · simp [insertByName, hxy]
    · simp only [insertByName, hxy]
      simp [ih]
      tauto

lemma insertByName_perm (x : Str × Str) (l : List (Str × Str)) :
    List.Perm (insertByName x l) (x :: l) := by
  induction l with
  | nil => exact List.Perm.refl _
  | cons y ys ih =>
    by_cases hxy : strLe x.1 y.1 = true
    · simp [insertByName, hxy]
    · simp only [insertByName, hxy, if_neg]
      exact List.Perm.trans (List.Perm.cons y ih) (List.Perm.swap x y ys)

lemma pairwise_insertByName (x : Str × Str) (l : List (Str × Str))
    (h : List.Pairwise nameLe l) : List.Pairwise nameLe (insertByName x l) := by
  induction l with
  | nil => simp [insertByName]
  | cons y ys ih =>
    rcases List.pairwise_cons.mp h with ⟨hy, hys⟩
    by_cases hxy : strLe x.1 y.1 = true
    · simp only [insertByName, hxy, if_pos]
      refine List.pairwise_cons.mpr ⟨?_, h⟩
      intro a ha
      rcases List.mem_cons.mp ha with rfl | ha'
      · exact hxy
      · exact strLe_trans x.1 y.1 a.1 hxy (hy a ha')
    · have hyx : strLe y.1 x.1 = true := (strLe_total x.1 y.1).resolve_left hxy
      simp only [insertByName, hxy, if_neg]
      refine List.pairwise_cons.mpr ⟨?_, ih hys⟩
      intro a ha
      rcases (mem_insertByName a x ys).mp ha with rfl | ha'
      · exact hyx
      · exact hy a ha'

lemma sortByName_perm (l : List (Str × Str)) : List.Perm (sortByName l) l := by
  induction l with
  | nil => exact List.Perm.refl _
  | cons x xs ih =>
    exact List.Perm.trans (insertByName_perm x (sortByName xs)) (List.Perm.cons x ih)

lemma sortByName_pairwise (l : List (Str × Str)) :
    List.Pairwise nameLe (sortByName l) := by
  induction l with
  | nil => simp [sortByName]
  | cons x xs ih => exact pairwise_insertByName x (sortByName xs) ih

/-- The listing order used for guides and decisions is a permutation of the
markdown files of the directory. -/
lemma sortedMdFiles_perm (l : List (Str × Str)) :
    List.Perm (sortedMdFiles l) (mdFiles l) := sortByName_perm (mdFiles l)

/-- The listing order used for guides and decisions is lexicographically
sorted by file name. -/
lemma sortedMdFiles_pairwise (l : List (Str × Str)) :
    List.Pairwise nameLe (sortedMdFiles l) := sortByName_pairwise (mdFiles l)

lemma runWrites_lookup (l : List (Str × Str)) (s : FileStore) (q : Str) :
    runWrites s l q =
      match lastWrite l q with
      | some c => some c
      | none => s q := by
  induction l generalizing s with
  | nil => rfl
  | cons w rest ih =>
    show runWrites (writeFileAt s w.1 w.2) rest q = _
    rw [ih]
    cases h : lastWrite rest q with
    | some c => simp [lastWrite, h]
    | none =>
      simp only [lastWrite, h]
      by_cases hq : w.1 = q
      · simp [writeFileAt, hq]
      · have hq' : ¬ q = w.1 := fun hh => hq hh.symm
        simp [writeFileAt, hq, hq']

/-- Replaying the same emission plan twice leaves exactly the store of one
replay: every write overwrites the path with the same content. -/
lemma runWrites_idem (l : List (Str × Str)) (s : FileStore) :
    runWrites (runWrites s l) l = runWrites s l := by
  funext q
  rw [runWrites_lookup, runWrites_lookup]
  cases h : lastWrite l q with
  | some c => simp
  | none => simp

lemma noGuideLink_cons (c : Char) (t : Str) (h : noGuideLink (c :: t) = true) :
    guideLinkMatch (c :: t) = none ∧ noGuideLink t = true := by
  have h' := h
  simp only [noGuideLink, Bool.and_eq_true, Option.isNone_iff_eq_none] at h'
  exact h'

lemma rewriteGoF_nil (sec : Str) (fuel : Nat) : rewriteGoF sec fuel [] = [] := by
  cases fuel <;> rfl

lemma rewriteGoF_succ (sec : Str) (n : Nat) (l : Str) :
    rewriteGoF sec (n + 1) l =
      match guideLinkMatch l with
      | some (core, after) =>
        str "(.cursor/rules/" ++ sec ++ str "-" ++ core ++ str ".mdc)"
          ++ rewriteGoF sec n after
      | none =>
        match l with
        | [] => []
        | c :: rest => c :: rewriteGoF sec n rest := rfl

/-- If no position of the content matches the guide-link pattern, the global
replace is the identity, whatever the fuel. -/
lemma rewriteGoF_noMatch (sec : Str) (fuel : Nat) :
    ∀ l : Str, noGuideLink l = true → rewriteGoF sec fuel l = l := by
  induction fuel with
  | zero => intro l _; rfl
  | succ f ih =>
    intro l h
    cases l with
    | nil => rfl
    | cons c t =>
      obtain ⟨hm, ht⟩ := noGuideLink_cons c t h
      simp [rewriteGoF, hm, ih t ht]

lemma isPrefixOf_append_self (p t : Str) : List.isPrefixOf p (p ++ t) = true := by
  induction p with
  | nil => simp [List.isPrefixOf]
  | cons a as ih => simp [List.isPrefixOf, ih]

lemma takeWhile_append_all (p : Char → Bool) (l₁ l₂ : Str)
    (h : ∀ c ∈ l₁, p c = true) :
    (l₁ ++ l₂).takeWhile p = l₁ ++ l₂.takeWhile p := by
  induction l₁ with
  | nil => simp
  | cons a t ih =>
    have ha : p a = true := h a (List.mem_cons_self a t)
    simp [List.takeWhile_cons, ha]
    exact ih (fun c hc => h c (List.mem_cons_of_mem a hc))

/-- The guide-link pattern matches a whole link `(./guides/<id>.md)` for any
non-empty identifier free of `)`, capturing exactly the identifier. -/
lemma guideLinkMatch_link (id : Str) (hne : id ≠ [])
    (hpar : ∀ c ∈ id, (c == ')') = false) :
    guideLinkMatch (str "(./guides/" ++ id ++ str ".md)") = some (id, []) := by
  have hmd : str ".md)" = str ".md" ++ str ")" := by decide
  have hsplit : str "(./guides/" ++ id ++ str ".md)"
      = str "(./guides/" ++ ((id ++ str ".md") ++ str ")") := by
    rw [hmd]
    simp [List.append_assoc]
  have hpre : List.isPrefixOf (str "(./guides/")
      (str "(./guides/" ++ id ++ str ".md)") = true := by
    rw [hsplit]; exact isPrefixOf_append_self _ _
  have hdrop : (str "(./guides/" ++ id ++ str ".md)").drop 10
      = (id ++ str ".md") ++ str ")" := by
    rw [hsplit]
    exact List.drop_left (str "(./guides/") _
  have hall : ∀ c ∈ id ++ str ".md", (!(c == ')')) = true := by
    intro c hc
    rcases List.mem_append.mp hc with hc1 | hc2
    · simp [hpar c hc1]
    · fin_cases hc2 <;> decide
  have htake : ((id ++ str ".md") ++ str ")").takeWhile (fun c => !(c == ')'))
      = id ++ str ".md" := by
    rw [takeWhile_append_all _ _ _ hall]
    simp [str, List.takeWhile]
  have hlen : (id ++ str ".md").length = id.length + 3 := by
    simp [str]
  have hdrop2 : ((id ++ str ".md") ++ str ")").drop (id ++ str ".md").length
      = str ")" := List.drop_left _ _
  have hrev : List.isPrefixOf (str ".md").reverse (id ++ str ".md").reverse = true := by
    rw [List.reverse_append]
    exact isPrefixOf_append_self _ _
  have hge : 4 ≤ (id ++ str ".md").length := by
    have : 1 ≤ id.length := List.length_pos.mpr hne
    omega
  have htakeid : (id ++ str ".md").take ((id ++ str ".md").length - 3) = id := by
    have h3 : (id ++ str ".md").length - 3 = id.length := by omega
    rw [h3]
    exact List.take_left id _
  unfold guideLinkMatch
  rw [if_pos hpre]
  simp only [hdrop, htake, hdrop2]
  have hp : str ")" = [')'] := by decide
  rw [hp]
  have h3 : (str ".md").length = 3 := by decide
  have hge2 : 4 ≤ id.length + (str ".md").length := by
    rw [h3]
    have := List.length_pos.mpr hne
    omega
  have htk : List.take (id.length + (str ".md").length - 3) (id ++ str ".md") = id := by
    rw [h3]
    have hl : id.length + 3 - 3 = id.length := by omega
    rw [hl]
    exact List.take_left id _
  simp [hrev, hge2, htk]

/-- Every Copilot output file is the fixed frontmatter block followed by the
rest of the joined lines. -/
lemma copilotHeaderJoin (x : Str) (t : List Str) :
    joinSep (str "\n")
        (str "---" :: str "applyTo: \"src/data/**\"" :: str "---" :: [] :: x :: t)
      = str "---\napplyTo: \"src/data/**\"\n---\n\n" ++ joinSep (str "\n") (x :: t) := by
  simp only [joinSep]
  simp only [← List.append_assoc]
  congr 1

/-- `alwaysApply: false` is always among the frontmatter lines of a rule
built with `alwaysApply = false`, whatever the description and globs. -/
lemma mem_mdcLines_false (d g : Option Str) (b : Str) :
    str "alwaysApply: false" ∈ mdcLines d g b false := by
  have h : str "alwaysApply: false" = str "alwaysApply: " ++ str "false" := by decide
  simp only [mdcLines]
  rw [h]
  simp

/-- A guide description `<section title> guide: <title>` is never the empty
string, so its `description:` line is never dropped by JS truthiness. -/
lemma append_guide_ne_nil (a b : Str) : a ++ str " guide: " ++ b ≠ [] := by
  intro h
  rcases List.append_eq_nil.mp h with ⟨h1, _⟩
  rcases List.append_eq_nil.mp h1 with ⟨_, h4⟩
  exact absurd h4 (by decide)

/-- With a non-empty (JS-truthy) glob, the frontmatter lines carry the
`globs:` attribute. -/
lemma mdcLines_with_glob (d g b : Str) (hg : g ≠ []) :
    str "globs: " ++ g ∈ mdcLines (some d) (some g) b false := by
  cases g with
  | nil => exact absurd rfl hg
  | cons x xs =>
    cases hP : strTruthy (some d) <;>
      simp [mdcLines, hP, strTruthy]

/-- With no glob and a non-empty description, the frontmatter lines are
exactly delimiter, description, `alwaysApply: false`, delimiter, blank,
body — in particular no `globs:` line. -/
lemma mdcLines_none_globs (d b : Str) (hd : d ≠ []) :
    mdcLines (some d) none b false =
      [str "---", str "description: " ++ d, str "alwaysApply: false",
       str "---", [], b] := by
  have hAA : str "alwaysApply: " ++ str "false" = str "alwaysApply: false" := by decide
  cases d with
  | nil => exact absurd rfl hd
  | cons x xs => simp [mdcLines, strTruthy, hAA]

/- Concrete section fixtures used to instantiate the claims. -/

/-- A section whose decisions directory exists but is empty. -/
def fsEmptyDec : SectionFS := ⟨str "s", none, none, none, none, some []⟩

/-- A section with only an index file: no configuration, no role directories. -/
def fsIndexOnly : SectionFS := ⟨str "s", none, some (str "IDX"), none, none, none⟩

/-- A section with two agents whose `readdir` listing is not in sorted order. -/
def fsAgents2 : SectionFS :=
  ⟨str "s", none, none, none, some [(str "b.md", str "B"), (str "a.md", str "A")], none⟩

/-- A section with two decision files listed out of order. -/
def fsDec2 : SectionFS :=
  ⟨str "s", none, none, none, none,
   some [(str "D-b.md", str "bodyB"), (str "D-a.md", str "bodyA")]⟩

/-- A section with an index and one guide. -/
def fsIdxGuide : SectionFS :=
  ⟨str "s", none, some (str "IDX"), some [(str "a.md", str "G")], none, none⟩

/-- A sample configuration with a section glob and one per-guide override. -/
def cfgSample : SectionConfig := ⟨some (str "src/**"), [(str "a", str "src/a/**")]⟩

/-- C5 counterexample: the rewriter consults no mapping.  In a section with an
empty guides directory the guide-identifier mapping is empty, so `zz` is
unmapped, yet the link `(./guides/zz.md)` is rewritten rather than left
character-for-character untouched. -/
theorem rewriteUnmappedChanged :
    mdFiles ([] : List (Str × Str)) = [] ∧
    rewriteIndexPaths (str "(./guides/zz.md)") (str "s")
      = str "(.cursor/rules/s-zz.mdc)" ∧
    str "(.cursor/rules/s-zz.mdc)" ≠ str "(./guides/zz.md)" := by
  decide

/-- C5 (amended): the rewriter is a total pure transform — it never fails —
but it applies the fixed scheme `<id> to .cursor/rules/<section>-<id>.mdc` to
every link matching `(./guides/<id>.md)`, whether or not `<id>` names a guide
of the section; no mapping is consulted. -/
theorem rewriteAppliesFixedScheme (sec id : Str) (hne : id ≠ [])
    (hpar : ∀ c ∈ id, (c == ')') = false) :
    rewriteIndexPaths (str "(./guides/" ++ id ++ str ".md)") sec
      = str "(.cursor/rules/" ++ sec ++ str "-" ++ id ++ str ".mdc)" := by
  have h10 : (str "(./guides/").length = 10 := by decide
  have h4 : (str ".md)").length = 4 := by decide
  have hlen : (str "(./guides/" ++ id ++ str ".md)").length = (id.length + 13) + 1 := by
    simp [List.length_append, h10, h4]
    omega
  unfold rewriteIndexPaths
  rw [hlen, rewriteGoF_succ, guideLinkMatch_link id hne hpar]
  simp only []
  rw [rewriteGoF_nil]
  simp [List.append_assoc]

/-- C5 witness: the fixed scheme applied to the unmapped identifier
`zz-ghost` in section `s`. -/
theorem rewriteAppliesFixedSchemeInst :
    rewriteIndexPaths (str "(./guides/" ++ str "zz-ghost" ++ str ".md)") (str "s")
      = str "(.cursor/rules/" ++ str "s" ++ str "-" ++ str "zz-ghost" ++ str ".mdc)" :=
  rewriteAppliesFixedScheme (str "s") (str "zz-ghost") (by decide) (by decide)

/-- C6: the rewriter rewrites only links matching the guide-linking
convention: on content where no position matches the pattern (in particular
content holding only external URLs) it is the identity, and on the spec's
example — a link to `guides/01-query-keys.md` in section `tanstack-query` —
it points the link exactly at the emitter-specific output path without
altering any surrounding text. -/
theorem rewriteOnlyConvention :
    (∀ sec content : Str,
      noGuideLink content = true → rewriteIndexPaths content sec = content) ∧
    rewriteIndexPaths
        (str "See [k](./guides/01-query-keys.md) and [d](https://tanstack.com/query).")
        (str "tanstack-query")
      = str "See [k](.cursor/rules/tanstack-query-01-query-keys.mdc) and [d](https://tanstack.com/query)." := by
  constructor
  · intro sec content h
    exact rewriteGoF_noMatch sec content.length content h
  · decide

/-- C6 witness: index content holding only an external URL is unchanged. -/
theorem rewriteOnlyConventionInst :
    rewriteIndexPaths (str "[d](https://example.com/a.md)") (str "s")
      = str "[d](https://example.com/a.md)" :=
  rewriteOnlyConvention.1 (str "s") (str "[d](https://example.com/a.md)") (by decide)

/-- C7 counterexample: agent artifacts are processed in `readdir` listing
order, which need not be lexicographic — a listing `b.md, a.md` is emitted as
`b` then `a`, so the processing order of agents is not sorted by file name. -/
theorem agentsNotSorted :
    (cursorAgentsPlan fsAgents2).map Prod.fst
      = [str ".cursor/rules/s-b.mdc", str ".cursor/rules/s-a.mdc"] ∧
    ¬ List.Pairwise nameLe
        (listedMdFiles [(str "b.md", str "B"), (str "a.md", str "A")]) := by
  constructor
  · decide
  · decide

/-- C7 (amended): the guide and decision processing order is an explicitly
sorted permutation of the directory's markdown files — lexicographic by file
name — while the agent processing order is the raw filtered listing. -/
theorem guidesDecisionsSorted (l : List (Str × Str)) :
    List.Perm (sortedMdFiles l) (mdFiles l) ∧
    List.Pairwise nameLe (sortedMdFiles l) ∧
    listedMdFiles l = mdFiles l :=
  ⟨sortedMdFiles_perm l, sortedMdFiles_pairwise l, rfl⟩

/-- C1 counterexample: a section whose decisions directory exists but holds
no markdown file has N = 0 decision artifacts, yet both emitters still write
one decision output file (its body empty), instead of none. -/
theorem decisionsZeroStillEmitted :
    decisionArtifacts fsEmptyDec = [] ∧
    (cursorDecisionsPlan fsEmptyDec).length = 1 ∧
    (copilotDecisionsPlan fsEmptyDec).length = 1 := by
  decide

/-- C1 (amended): for both emitters, whenever the decisions directory exists
exactly one decision output file is produced, whose body is the bodies of all
N decision artifacts in lexicographic file-name order joined by a visible
horizontal rule — including N = 0, where the body is empty; no decision
output is produced exactly when the decisions directory is absent. -/
theorem decisionsAggregated (fs : SectionFS) :
    (fs.decisionsDir = none →
      cursorDecisionsPlan fs = [] ∧ copilotDecisionsPlan fs = []) ∧
    (∀ l, fs.decisionsDir = some l →
      ∃ ds, List.Perm ds (mdFiles l) ∧ List.Pairwise nameLe ds ∧
        cursorDecisionsPlan fs =
          [(cursorRulesDir ++ fs.name ++ str "-decisions.mdc",
            toMdcRule
              (some (fs.name ++ str " — architecture decision records (ADRs)"))
              none (joinSep (str "\n\n---\n\n") (ds.map (fun g => g.2))) false)] ∧
        copilotDecisionsPlan fs =
          [(instructionsDir ++ fs.name ++ str "-decisions.instructions.md",
            joinSep (str "\n")
              [str "---", str "applyTo: \"src/data/**\"", str "---", [],
               joinSep (str "\n\n---\n\n") (ds.map (fun g => g.2))])]) := by
  constructor
  · intro h
    constructor
    · simp [cursorDecisionsPlan, h]
    · simp [copilotDecisionsPlan, h]
  · intro l h
    refine ⟨sortedMdFiles l, sortedMdFiles_perm l, sortedMdFiles_pairwise l, ?_, ?_⟩
    · simp [cursorDecisionsPlan, h]
    · simp [copilotDecisionsPlan, h]

/-- C1 witness: a section without a decisions directory yields no decision
output, and one with two decision files yields exactly one cursor output. -/
theorem decisionsAggregatedInst :
    cursorDecisionsPlan fsIndexOnly = [] ∧
    (cursorDecisionsPlan fsDec2).length = 1 := by
  refine ⟨((decisionsAggregated fsIndexOnly).1 rfl).1, ?_⟩
  obtain ⟨ds, _, _, hc, _⟩ := (decisionsAggregated fsDec2).2 _ rfl
  rw [hc]
  rfl

/-- C2 counterexample: a section with an index file but no guides directory
produces no Copilot output at all, so no output file carries the index
content even though the section has an index. -/
theorem indexLostWithoutGuides :
    fsIndexOnly.indexFile = some (str "IDX") ∧ copilotInstall fsIndexOnly = [] := by
  decide

/-- C2 (amended): the Cursor emitter produces exactly one index output file
iff the index file exists; the Copilot emitter merges the index into the
guides group file, which exists iff the guides directory exists — so a
section with an index but no guides directory emits no output carrying the
index under Format B. -/
theorem indexEmission (fs : SectionFS) :
    ((cursorIndexPlan fs).length = if fs.indexFile.isSome then 1 else 0) ∧
    ((copilotGuidesPlan fs).length = if fs.guidesDir.isSome then 1 else 0) ∧
    (∀ idx l, fs.indexFile = some idx → fs.guidesDir = some l →
      ∃ post, copilotGuidesPlan fs =
        [(instructionsDir ++ fs.name ++ str "-guides.instructions.md",
          str "---\napplyTo: \"src/data/**\"\n---\n\n" ++ idx ++ post)]) := by
  refine ⟨?_, ?_, ?_⟩
  · cases h : fs.indexFile <;> simp [cursorIndexPlan, h]
  · cases h : fs.guidesDir <;> simp [copilotGuidesPlan, h]
  · intro idx l h1 h2
    refine ⟨str "\n" ++ joinSep (str "\n")
      ([] :: str "---" :: [] ::
        joinSep (str "\n\n---\n\n") ((sortedMdFiles l).map (fun g => g.2)) :: []), ?_⟩
    simp only [copilotGuidesPlan, h1, h2, Option.getD_some]
    rw [copilotHeaderJoin]
    simp [joinSep, List.append_assoc]

/-- C2 witness: a section with an index and one guide has a non-empty Copilot
guides output. -/
theorem indexEmissionInst : copilotGuidesPlan fsIdxGuide ≠ [] := by
  obtain ⟨post, hp⟩ :=
    (indexEmission fsIdxGuide).2.2 (str "IDX") [(str "a.md", str "G")] rfl rfl
  simp [hp]

/-- C3 counterexample: a section without a guides directory has zero guide
artifacts and the Copilot emitter produces zero merged guide output files,
not exactly one. -/
theorem copilotNoGuidesDirNoOutput :
    guideArtifacts fsIndexOnly = [] ∧
    (copilotGuidesPlan fsIndexOnly).length = 0 ∧
    (copilotGuidesPlan fsIndexOnly).length ≠ 1 := by
  decide

/-- C3 (amended): under Format A the number of guide output files equals the
number of guide artifacts; under Format B exactly one merged output file is
produced iff the guides directory exists (whatever the artifact count, zero
included), and its body concatenates all guide bodies in lexicographic
file-name order. -/
theorem guideEmissionCounts (fs : SectionFS) :
    ((cursorGuidesPlan fs).length = (guideArtifacts fs).length) ∧
    ((copilotGuidesPlan fs).length = if fs.guidesDir.isSome then 1 else 0) ∧
    (∀ l, fs.guidesDir = some l →
      ∃ gs, List.Perm gs (mdFiles l) ∧ List.Pairwise nameLe gs ∧
        copilotGuidesPlan fs =
          [(instructionsDir ++ fs.name ++ str "-guides.instructions.md",
            joinSep (str "\n")
              [str "---", str "applyTo: \"src/data/**\"", str "---", [],
               fs.indexFile.getD [], [], str "---", [],
               joinSep (str "\n\n---\n\n") (gs.map (fun g => g.2))])]) := by
  refine ⟨?_, ?_, ?_⟩
  · cases h : fs.guidesDir with
    | none => simp [cursorGuidesPlan, guideArtifacts, h]
    | some l =>
      simp only [cursorGuidesPlan, guideArtifacts, h, List.length_map]
      exact (sortedMdFiles_perm l).length_eq
  · cases h : fs.guidesDir <;> simp [copilotGuidesPlan, h]
  · intro l h
    refine ⟨sortedMdFiles l, sortedMdFiles_perm l, sortedMdFiles_pairwise l, ?_⟩
    simp [copilotGuidesPlan, h]

/-- C3 witness: the merged Copilot guides output of a concrete section is the
single expected file. -/
theorem guideEmissionCountsInst :
    (copilotGuidesPlan fsIdxGuide).map Prod.fst
      = [instructionsDir ++ str "s" ++ str "-guides.instructions.md"] := by
  obtain ⟨gs, _, _, hc⟩ :=
    (guideEmissionCounts fsIdxGuide).2.2 [(str "a.md", str "G")] rfl
  rw [hc]
  rfl

/-- C8: running the full installation twice for the same section and emitter
with unchanged source content leaves a byte-identical output store: the
second run overwrites every file with exactly the content of the first. -/
theorem installIdempotent (fs : SectionFS) (store : FileStore) :
    runWrites (runWrites store (cursorInstall fs)) (cursorInstall fs)
      = runWrites store (cursorInstall fs) ∧
    runWrites (runWrites store (copilotInstall fs)) (copilotInstall fs)
      = runWrites store (copilotInstall fs) :=
  ⟨runWrites_idem (cursorInstall fs) store, runWrites_idem (copilotInstall fs) store⟩

/-- C4: for every guide, its emitted rule is `toMdcRule` applied to the
description `<section title> guide: <extracted title or identifier>` (first
markdown heading, file name minus `.md` as fallback) and the per-guide glob
override looked up under the guide's identifier; when a (non-empty) override
is present the frontmatter carries its `globs:` line, and when none is
present the frontmatter is exactly the description-only on-demand form with
no `globs:` line. -/
theorem guideAttachment (sectionName : Str) (guideGlobs : List (Str × Str))
    (name content : Str) :
    (cursorGuideRule sectionName guideGlobs (name, content)).2 =
      toMdcRule
        (some (sectionName ++ str " guide: "
          ++ (extractTitle content).getD (replaceFirstMd name)))
        (lookupGlob guideGlobs (replaceFirstMd name)) content false ∧
    (∀ glob, lookupGlob guideGlobs (replaceFirstMd name) = some glob → glob ≠ [] →
      str "globs: " ++ glob ∈
        mdcLines
          (some (sectionName ++ str " guide: "
            ++ (extractTitle content).getD (replaceFirstMd name)))
          (some glob) content false) ∧
    (lookupGlob guideGlobs (replaceFirstMd name) = none →
      mdcLines
        (some (sectionName ++ str " guide: "
          ++ (extractTitle content).getD (replaceFirstMd name)))
        none content false =
        [str "---",
         str "description: " ++ (sectionName ++ str " guide: "
           ++ (extractTitle content).getD (replaceFirstMd name)),
         str "alwaysApply: false", str "---", [], content]) := by
  refine ⟨rfl, ?_, ?_⟩
  · intro glob _ hne
    exact mdcLines_with_glob _ glob content hne
  · intro _
    exact mdcLines_none_globs _ content (append_guide_ne_nil sectionName _)

/-- C4 witness: a guide `01.md` with heading `T` and an override for key `01`
gets the override's `globs:` line in its frontmatter. -/
theorem guideAttachmentInst :
    str "globs: " ++ str "src/**" ∈
      mdcLines
        (some (str "s" ++ str " guide: "
          ++ (extractTitle (str "# T")).getD (replaceFirstMd (str "01.md"))))
        (some (str "src/**")) (str "# T") false :=
  (guideAttachment (str "s") [(str "01", str "src/**")] (str "01.md") (str "# T")).2.1
    (str "src/**") (by decide) (by decide)

/-- C9: every rule the Cursor emitter writes — index, guide, agent, or
decisions — is built by `toMdcRule` with `alwaysApply = false`, and its
frontmatter lines therefore contain `alwaysApply: false`; no configuration
can make a rule unconditionally active. -/
theorem cursorAlwaysApplyFalse (fs : SectionFS) (p c : Str)
    (h : (p, c) ∈ cursorInstall fs) : alwaysApplyFalseRule c := by
  unfold cursorInstall at h
  rcases List.mem_append.mp h with h123 | hdec
  · rcases List.mem_append.mp h123 with h12 | hag
    · rcases List.mem_append.mp h12 with hidx | hgd
      · cases hf : fs.indexFile with
        | none => simp [cursorIndexPlan, hf] at hidx
        | some idx =>
          simp [cursorIndexPlan, hf] at hidx
          exact ⟨_, _, _, hidx.2, mem_mdcLines_false _ _ _⟩
      · cases hf : fs.guidesDir with
        | none => simp [cursorGuidesPlan, hf] at hgd
        | some l =>
          simp only [cursorGuidesPlan, hf] at hgd
          obtain ⟨g, _, heq⟩ := List.mem_map.mp hgd
          have hc : c = (cursorGuideRule fs.name fs.guideGlobsMap g).2 := by
            rw [heq]
          exact ⟨_, _, _, hc, mem_mdcLines_false _ _ _⟩
    · cases hf : fs.agentsDir with
      | none => simp [cursorAgentsPlan, hf] at hag
      | some l =>
        simp only [cursorAgentsPlan, hf] at hag
        obtain ⟨g, _, heq⟩ := List.mem_map.mp hag
        have hc : c = (cursorAgentRule fs.name g).2 := by
          rw [heq]
        exact ⟨_, _, _, hc, mem_mdcLines_false _ _ _⟩
  · cases hf : fs.decisionsDir with
    | none => simp [cursorDecisionsPlan, hf] at hdec
    | some l =>
      simp [cursorDecisionsPlan, hf] at hdec
      exact ⟨_, _, _, hdec.2, mem_mdcLines_false _ _ _⟩

/-- C9 witness: the index rule of a concrete section is an
`alwaysApply: false` rule. -/
theorem cursorAlwaysApplyFalseInst :
    alwaysApplyFalseRule
      (toMdcRule
        (some (str "s" ++ str " — index and routing table. Read this FIRST to find which guide to load."))
        none (rewriteIndexPaths (str "IDX") (str "s")) false) :=
  cursorAlwaysApplyFalse fsIndexOnly
    (cursorRulesDir ++ str "s" ++ str "-index.mdc")
    (toMdcRule
      (some (str "s" ++ str " — index and routing table. Read this FIRST to find which guide to load."))
      none (rewriteIndexPaths (str "IDX") (str "s")) false)
    (by decide)

/-- C10: every file the Copilot emitter writes — merged guides, each agent,
merged decisions — begins with the identical fixed frontmatter
`applyTo: "src/data/**"`, and the emitter never reads the section
configuration: changing the configuration changes no Copilot output. -/
theorem copilotFixedFrontmatter :
    (∀ fs : SectionFS, ∀ p c, (p, c) ∈ copilotInstall fs → hasApplyToHeader c) ∧
    (∀ (n : Str) (cf cf' : Option SectionConfig) (i : Option Str)
       (g a d : Option (List (Str × Str))),
      copilotInstall ⟨n, cf, i, g, a, d⟩ = copilotInstall ⟨n, cf', i, g, a, d⟩) := by
  constructor
  · intro fs p c h
    unfold copilotInstall at h
    rcases List.mem_append.mp h with h12 | hdec
    · rcases List.mem_append.mp h12 with hgd | hag
      · cases hf : fs.guidesDir with
        | none => simp [copilotGuidesPlan, hf] at hgd
        | some l =>
          simp [copilotGuidesPlan, hf] at hgd
          refine ⟨joinSep (str "\n")
            (fs.indexFile.getD [] :: [[], str "---", [],
              joinSep (str "\n\n---\n\n") ((sortedMdFiles l).map (fun g => g.2))]), ?_⟩
          rw [hgd.2]
          exact copilotHeaderJoin _ _
      · cases hf : fs.agentsDir with
        | none => simp [copilotAgentsPlan, hf] at hag
        | some l =>
          simp only [copilotAgentsPlan, hf] at hag
          obtain ⟨g, _, heq⟩ := List.mem_map.mp hag
          obtain ⟨-, hceq⟩ := Prod.mk.inj heq
          refine ⟨joinSep (str "\n") [g.2], ?_⟩
          rw [← hceq]
          exact copilotHeaderJoin _ _
    · cases hf : fs.decisionsDir with
      | none => simp [copilotDecisionsPlan, hf] at hdec
      | some l =>
        simp [copilotDecisionsPlan, hf] at hdec
        refine ⟨joinSep (str "\n")
          [joinSep (str "\n\n---\n\n") ((sortedMdFiles l).map (fun g => g.2))], ?_⟩
        rw [hdec.2]
        exact copilotHeaderJoin _ _
  · intro n cf cf' i g a d
    rfl

/-- C10 witness: the merged guides file of a concrete section carries the
fixed header, and replacing that section's configuration leaves the Copilot
output identical. -/
theorem copilotFixedFrontmatterInst :
    hasApplyToHeader
      (joinSep (str "\n")
        [str "---", str "applyTo: \"src/data/**\"", str "---", [],
         str "IDX", [], str "---", [], str "G"]) ∧
    copilotInstall ⟨str "s", some cfgSample, some (str "IDX"),
        some [(str "a.md", str "G")], none, none⟩
      = copilotInstall ⟨str "s", none, some (str "IDX"),
        some [(str "a.md", str "G")], none, none⟩ := by
  constructor
  · exact copilotFixedFrontmatter.1 fsIdxGuide
      (instructionsDir ++ str "s" ++ str "-guides.instructions.md") _ (by decide)
  · exact copilotFixedFrontmatter.2 (str "s") (some cfgSample) none (some (str "IDX"))
      (some [(str "a.md", str "G")]) none none

end GuacInstall
